import Mathlib

/-!
Verification of the go-zfs-rebalance core (`pkg/rebalance/rebalance.go`,
`internal/database/database.go`, `internal/fileutil`, `cmd/rebalance/main.go`)
against its natural-language specification.

The per-file replace protocol `RebalanceFile`, the ledger operations, the
shutdown channel, the worker loop of `Run` and `calculateConcurrency` are
shallowly embedded as pure Lean functions.  The filesystem is a map from
paths to file records; I/O faults that the Go code branches on (copy
failure, corruption of the temporary file, concurrent deletion of the
original, rename failure, chmod/chtimes failure, database-write failure)
are injected through an explicit environment record, so that every error
branch of the source is reachable in the model.  Cryptographic digests are
modelled as collision-free, i.e. two files have equal digests exactly when
their byte contents are equal.
-/

set_option maxHeartbeats 1000000

namespace GoZfsRebalance

/-- A file's bytes, modelled as a list of byte values. -/
abbrev Content := List Nat

/-- A regular-file record: content, permission bits (`mode`), modification
time (`mtime`), hardlink count, and whether it is a regular file
(`Mode().IsRegular()` in Go). -/
structure File where
  content : Content
  mode : Nat
  mtime : Nat
  linkCount : Nat
  regular : Bool
  deriving DecidableEq

/-- The filesystem: a map from path to the file stored there (`none` when
no file exists at that path). -/
abbrev Fs := String → Option File

/-- Pointwise update of the filesystem at one path (file creation,
overwrite, or removal when the new value is `none`). -/
def updateFs (fs : Fs) (p : String) (v : Option File) : Fs :=
  fun q => if q = p then v else fs q

/-- The byte content stored at a path, if a file exists there. -/
def contentAt (fs : Fs) (p : String) : Option Content :=
  (fs p).map File.content

/-- The persistent pass ledger (`internal/database`): a map from file path
to the recorded rebalance count (Go `int`).  A path with no row reads as
`0`, matching `GetRebalanceCount`'s `sql.ErrNoRows` branch. -/
abbrev Ledger := String → Int

/-- `DB.GetRebalanceCount`: read the recorded count for a path. -/
def GetRebalanceCount (l : Ledger) (p : String) : Int := l p

/-- `DB.SetRebalanceCount`: upsert the count for a path. -/
def SetRebalanceCount (l : Ledger) (p : String) (n : Int) : Ledger :=
  fun q => if q = p then n else l q

/-- The mutable state a `RebalanceFile` call touches: the filesystem, the
ledger, and whether the shutdown channel has been closed
(`r.shutdownChan`). -/
structure St where
  fs : Fs
  ledger : Ledger
  shutdown : Bool

/-- The per-invocation configuration (`rebalance.Config`), restricted to
the fields the replace protocol and scheduler read. -/
structure Config where
  skipHardlinks : Bool
  passesLimit : Int
  concurrency : Int
  haltOnFileMissing : Bool

/-- Fault-injection environment for one `RebalanceFile` call.  Each field
makes one fallible I/O step of the Go code take its failure branch;
`tempContent`/`tempMode`/`tempTime`, when set, give the content, mode and
mtime the temporary file actually ends up with (modelling on-disk
corruption, umask effects and timestamp granularity).  `none` means the
copy is faithful, which is what `fileutil.CopyFile` produces. -/
structure Env where
  copyFails : Bool
  tempContent : Option Content
  tempMode : Option Nat
  tempTime : Option Nat
  removeVanished : Bool
  removeFails : Bool
  renameFails : Bool
  recoveryRenameFails : Bool
  chmodFails : Bool
  chtimesFails : Bool
  dbWriteFails : Bool

/-- The fully benign environment: no fault fires, the copy is faithful. -/
def benignEnv : Env :=
  { copyFails := false, tempContent := none, tempMode := none, tempTime := none
    removeVanished := false, removeFails := false, renameFails := false
    recoveryRenameFails := false, chmodFails := false, chtimesFails := false
    dbWriteFails := false }

/-- Why a `RebalanceFile` call returned `nil` without replacing the file. -/
inductive SkipReason
  | tempSuffix
  | hardlink
  | passLimit
  | notRegular
  | vanished
  | shutdownRequested
  deriving DecidableEq

/-- The error a `RebalanceFile` call returns (Go non-nil `error`). -/
inductive RebError
  | copyFailed
  | checksumMismatch
  | removeFailed
  | criticalRename (recoveryPath : String)
  | chmodFailed
  | chtimesFailed
  | dbWriteFailed
  deriving DecidableEq

/-- The observable outcome of a `RebalanceFile` call.  `done` and
`skipped _` are Go `nil` returns; `failed _` is a non-nil error;
`panicked` is a runtime panic (close of an already-closed channel), in
which case the call never returns. -/
inductive RebResult
  | done
  | skipped (reason : SkipReason)
  | failed (e : RebError)
  | panicked
  deriving DecidableEq

/-- Whether the Go return value is `nil` (success or no-op). -/
def RebResult.isNil : RebResult → Bool
  | .done => true
  | .skipped _ => true
  | .failed _ => false
  | .panicked => false

/-- The reserved temporary-artifact suffix. -/
def tempSuffix : String := ".balance"

/-- `strings.HasSuffix`, on the underlying character lists. -/
def strEndsWith (s t : String) : Bool := t.data.isSuffixOf s.data

/-- `fileutil.GetLinkCount`: `none` models the `os.IsNotExist` failure of
`Lstat` (the file is gone); otherwise the hardlink count. -/
def GetLinkCount (fs : Fs) (p : String) : Option Nat :=
  (fs p).map File.linkCount

/-- `fileutil.CompareFileChecksum` under the collision-free digest model:
the two files' digests are equal exactly when their contents are equal.
`false` also when either file cannot be read. -/
def CompareFileChecksum (fs : Fs) (orig cpy : String) : Bool :=
  match fs orig, fs cpy with
  | some a, some b => decide (a.content = b.content)
  | _, _ => false

/-- Closing the shutdown channel: `none` is the Go panic raised by
`close` on an already-closed channel. -/
def closeChan (closed : Bool) : Option Bool :=
  if closed then none else some true

/-- `Rebalancer.InitiateShutdown`: closes `r.shutdownChan` with a raw
`close`, so a second call panics (`none`). -/
def InitiateShutdown (st : St) : Option St :=
  match closeChan st.shutdown with
  | none => none
  | some b => some { st with shutdown := b }

/-- The `os.IsNotExist` handling shared by the three vanished-file
branches of `RebalanceFile`: warn, call `InitiateShutdown` when
`HaltOnFileMissing` is set, and return `nil`. -/
def handleMissingFile (cfg : Config) (st : St) : St × RebResult :=
  if cfg.haltOnFileMissing then
    match InitiateShutdown st with
    | none => (st, .panicked)
    | some st' => (st', .skipped .vanished)
  else (st, .skipped .vanished)

/-- Step 5 of the protocol: re-stat the renamed file and restore the
snapshotted permission bits and modification time, mirroring the
`os.Chmod` / `os.Chtimes` calls.  Returns the file record actually left
on disk together with the error, if any. -/
def fixMetadata (env : Env) (srcInfo newInfo : File) : File × Option RebError :=
  if newInfo.mode ≠ srcInfo.mode ∧ env.chmodFails = true then
    (newInfo, some .chmodFailed)
  else
    let f1 := if newInfo.mode ≠ srcInfo.mode then { newInfo with mode := srcInfo.mode } else newInfo
    if newInfo.mtime ≠ srcInfo.mtime ∧ env.chtimesFails = true then
      (f1, some .chtimesFailed)
    else
      (if newInfo.mtime ≠ srcInfo.mtime then { f1 with mtime := srcInfo.mtime } else f1, none)

/-- The temporary file `fileutil.CopyFile` leaves at `path + ".balance"`,
with the environment's injected deviations applied (`none` fields mean
the faithful copy the Go code produces). -/
def tempFileOf (env : Env) (srcInfo : File) : File :=
  { content := env.tempContent.getD srcInfo.content
    mode := env.tempMode.getD srcInfo.mode
    mtime := env.tempTime.getD srcInfo.mtime
    linkCount := 1
    regular := true }

/-- Steps 1-5 of the replace protocol, from the copy onwards: copy to
`path + ".balance"`; checksum verification with temp cleanup on mismatch;
removal of the original (with the concurrent-vanish and failure
branches); rename of the temp over the original, falling back to
`path + ".recovered"` on failure; metadata restoration; and the ledger
update, performed only when `PassesLimit > 0`. -/
def replaceProtocol (cfg : Config) (env : Env) (st : St) (filePath : String)
    (oldCount : Int) (srcInfo : File) : St × RebResult :=
  let tmpFilePath := filePath ++ tempSuffix
  if env.copyFails then (st, .failed .copyFailed)
  else
    let tmpFile := tempFileOf env srcInfo
    let fs1 := updateFs st.fs tmpFilePath (some tmpFile)
    if CompareFileChecksum fs1 filePath tmpFilePath = false then
      ({ st with fs := updateFs fs1 tmpFilePath none }, .failed .checksumMismatch)
    else if env.removeVanished then
      handleMissingFile cfg
        { st with fs := updateFs (updateFs fs1 filePath none) tmpFilePath none }
    else if env.removeFails then
      ({ st with fs := updateFs fs1 tmpFilePath none }, .failed .removeFailed)
    else
      let fs2 := updateFs fs1 filePath none
      if env.renameFails then
        let emergencyPath := filePath ++ ".recovered"
        let fs3 :=
          if env.recoveryRenameFails then fs2
          else updateFs (updateFs fs2 tmpFilePath none) emergencyPath (some tmpFile)
        ({ st with fs := fs3 }, .failed (.criticalRename emergencyPath))
      else
        let fs3 := updateFs (updateFs fs2 tmpFilePath none) filePath (some tmpFile)
        let fixed := fixMetadata env srcInfo tmpFile
        let fs4 := updateFs fs3 filePath (some fixed.1)
        match fixed.2 with
        | some e => ({ st with fs := fs4 }, .failed e)
        | none =>
          if cfg.passesLimit > 0 then
            if env.dbWriteFails then ({ st with fs := fs4 }, .failed .dbWriteFailed)
            else
              let newLedger := SetRebalanceCount st.ledger filePath (oldCount + 1)
              ({ st with fs := fs4, ledger := newLedger }, .done)
          else ({ st with fs := fs4 }, .done)

/-- The part of `RebalanceFile` after the hardlink check: pass-limit
check against the ledger; stat with the vanished and non-regular
branches; the pre-copy shutdown check; then the replace protocol. -/
def afterHardlinkCheck (cfg : Config) (env : Env) (st : St) (filePath : String) : St × RebResult :=
  let oldCount := GetRebalanceCount st.ledger filePath
  if cfg.passesLimit > 0 ∧ oldCount ≥ cfg.passesLimit then (st, .skipped .passLimit)
  else
    match st.fs filePath with
    | none => handleMissingFile cfg st
    | some srcInfo =>
      if srcInfo.regular = false then (st, .skipped .notRegular)
      else if st.shutdown then (st, .skipped .shutdownRequested)
      else replaceProtocol cfg env st filePath oldCount srcInfo

/-- `Rebalancer.RebalanceFile`, step for step: temp-suffix skip; hardlink
check (with the vanished-file branch); then the pass-limit check, the
stat checks and the replace protocol. -/
def RebalanceFile (cfg : Config) (env : Env) (st : St) (filePath : String) : St × RebResult :=
  if strEndsWith filePath tempSuffix then (st, .skipped .tempSuffix)
  else if cfg.skipHardlinks then
    match GetLinkCount st.fs filePath with
    | none => handleMissingFile cfg st
    | some n =>
      if n > 1 then (st, .skipped .hardlink)
      else afterHardlinkCheck cfg env st filePath
  else afterHardlinkCheck cfg env st filePath

/-- The message attached to the critical rename failure
(`fmt.Errorf("CRITICAL: rename failed, data saved to %s: %w", ...)`). -/
def errorMessage : RebError → String
  | .criticalRename rp => "CRITICAL: rename failed, data saved to " ++ rp
  | .copyFailed => "copy failed"
  | .checksumMismatch => "checksum mismatch for file"
  | .removeFailed => "remove failed"
  | .chmodFailed => "failed to fix permissions"
  | .chtimesFailed => "failed to fix timestamps"
  | .dbWriteFailed => "db update error"

/-- The worker loop of `Rebalancer.Run`, sequentialized: each queued file
is handled by exactly one worker, and a worker checks `isShuttingDown`
before starting the next file.  Returns the final state and, per
attempted file, the `RebalanceFile` outcome. -/
def runWorkerLoop (cfg : Config) (envs : String → Env) :
    St → List String → St × List (String × RebResult)
  | st, [] => (st, [])
  | st, f :: rest =>
    if st.shutdown then (st, [])
    else
      let out := RebalanceFile cfg (envs f) st f
      let next := runWorkerLoop cfg envs out.1 rest
      (next.1, (f, out.2) :: next.2)

/-- `Rebalancer.Run` over an already-gathered file list: run the worker
loop, then fold the per-file outcomes into the aggregate result
(`"some files failed to rebalance"` when any file's `RebalanceFile`
returned a non-nil error). -/
def Run (cfg : Config) (envs : String → Env) (st : St) (files : List String) :
    St × List (String × RebResult) × Option String :=
  let out := runWorkerLoop cfg envs st files
  (out.1, out.2,
    if out.2.any (fun o => !o.2.isNil) then some "some files failed to rebalance" else none)

/-- `calculateConcurrency` from `cmd/rebalance/main.go`: a positive
request is used as-is; otherwise half the CPU count, raised to at least
2. -/
def calculateConcurrency (concurrency : Int) (numCPU : Nat) : Int :=
  if concurrency > 0 then concurrency
  else if (numCPU : Int) / 2 < 2 then 2 else (numCPU : Int) / 2

/-- The number of workers `Run` launches:
`for i := 0; i < r.config.Concurrency; i++ { go ... }`. -/
def workersLaunched (cfg : Config) : Nat := cfg.concurrency.toNat

/-! ### Concrete fixtures used by witnesses and counterexamples -/

/-- A one-block regular file with a single hardlink. -/
def wFile : File :=
  { content := [1, 2, 3], mode := 420, mtime := 5, linkCount := 1, regular := true }

/-- A filesystem holding `wFile` at path `"a"`. -/
def wFs : Fs := fun p => if p = "a" then some wFile else none

/-- Initial state: `wFs`, empty ledger, shutdown not requested. -/
def wSt : St := { fs := wFs, ledger := fun _ => 0, shutdown := false }

/-- A default-like configuration: skip hardlinks, pass limit 10. -/
def wCfg : Config :=
  { skipHardlinks := true, passesLimit := 10, concurrency := 2, haltOnFileMissing := false }

/-- A filesystem with a regular file, a twice-hardlinked file at `"h"`,
and a non-regular file at `"d"`. -/
def wFs2 : Fs := fun p =>
  if p = "a" then some wFile
  else if p = "h" then some { wFile with linkCount := 2 }
  else if p = "d" then some { wFile with regular := false }
  else none

/-- Initial state over `wFs2`. -/
def wSt2 : St := { fs := wFs2, ledger := fun _ => 0, shutdown := false }

/-- `wCfg` with halt-on-missing enabled. -/
def wCfgHalt : Config := { wCfg with haltOnFileMissing := true }

/-! ### Basic lemmas about the embedding -/

@[simp] theorem updateFs_self (fs : Fs) (p : String) (v : Option File) :
    updateFs fs p v p = v := by
  simp [updateFs]

theorem updateFs_ne (fs : Fs) (p q : String) (v : Option File) (h : q ≠ p) :
    updateFs fs p v q = fs q := by
  simp [updateFs, h]

@[simp] theorem setCount_self (l : Ledger) (p : String) (n : Int) :
    SetRebalanceCount l p n p = n := by
  simp [SetRebalanceCount]

theorem setCount_ne (l : Ledger) (p q : String) (n : Int) (h : q ≠ p) :
    SetRebalanceCount l p n q = l q := by
  simp [SetRebalanceCount, h]

theorem strEndsWith_append (s t : String) : strEndsWith (s ++ t) t = true := by
  simp only [strEndsWith, String.data_append]
  exact List.isSuffixOf_iff_suffix.mpr (List.suffix_append _ _)

/-- A path that does not end with a given nonempty tail differs from
itself with the tail appended. -/
theorem ne_append_of_not_endsWith (p t : String) (h : strEndsWith p t = false) :
    p ≠ p ++ t := by
  intro he
  rw [he, strEndsWith_append] at h
  simp at h

/-- Appending a nonempty tail changes a path. -/
theorem ne_append_of_ne_nil (p t : String) (h : t.data ≠ []) : p ≠ p ++ t := by
  intro he
  have hd := congrArg String.data he
  rw [String.data_append] at hd
  have hlen := congrArg List.length hd
  rw [List.length_append] at hlen
  have : t.data.length = 0 := by omega
  exact h (List.length_eq_zero.mp this)

/-- Appending different tails to the same path gives different paths. -/
theorem append_ne_append (p t u : String) (h : t.data ≠ u.data) :
    p ++ t ≠ p ++ u := by
  intro he
  have hd := congrArg String.data he
  rw [String.data_append, String.data_append] at hd
  exact h (List.append_cancel_left hd)

/-- `handleMissingFile`, with the channel-close semantics spelled out as
plain conditionals. -/
theorem handleMissingFile_eq (cfg : Config) (st : St) :
    handleMissingFile cfg st =
      if cfg.haltOnFileMissing then
        if st.shutdown then (st, .panicked)
        else ({ st with shutdown := true }, .skipped .vanished)
      else (st, .skipped .vanished) := by
  by_cases h : cfg.haltOnFileMissing = true <;> by_cases h2 : st.shutdown = true <;>
    simp [handleMissingFile, InitiateShutdown, closeChan, h, h2]

/-- Metadata restoration never touches the file's bytes. -/
theorem fixMetadata_content (env : Env) (s n : File) :
    (fixMetadata env s n).1.content = n.content := by
  unfold fixMetadata
  repeat' split
  all_goals simp

/-- With halt-on-missing disabled, the replace protocol neither changes
the shutdown flag nor panics. -/
theorem replaceProtocol_shutdown (cfg : Config) (env : Env) (st : St) (p : String)
    (c : Int) (src : File) (out : St × RebResult)
    (hout : replaceProtocol cfg env st p c src = out)
    (h : cfg.haltOnFileMissing = false) :
    out.1.shutdown = st.shutdown ∧ out.2 ≠ .panicked := by
  unfold replaceProtocol at hout
  simp only [handleMissingFile_eq, h, Bool.false_eq_true, if_false] at hout
  repeat' split at hout
  all_goals (cases hout; simp)

/-- Entered with the shutdown channel still open, the replace protocol
cannot panic (the only `close` it may perform is then a first close). -/
theorem replaceProtocol_no_panic (cfg : Config) (env : Env) (st : St) (p : String)
    (c : Int) (src : File) (out : St × RebResult)
    (hout : replaceProtocol cfg env st p c src = out)
    (h : st.shutdown = false) :
    out.2 ≠ .panicked := by
  unfold replaceProtocol at hout
  simp only [handleMissingFile_eq, h, Bool.false_eq_true, if_false] at hout
  repeat' split at hout
  all_goals (cases hout; simp_all)

/-- The replace protocol never reports the shutdown skip: that skip can
only come from the pre-copy check in `RebalanceFile`. -/
theorem replaceProtocol_not_shutdownSkip (cfg : Config) (env : Env) (st : St) (p : String)
    (c : Int) (src : File) (out : St × RebResult)
    (hout : replaceProtocol cfg env st p c src = out) :
    out.2 ≠ .skipped .shutdownRequested := by
  unfold replaceProtocol at hout
  simp only [handleMissingFile_eq] at hout
  repeat' split at hout
  all_goals (cases hout; simp_all)

/-- Unless the call ends in the critical rename failure, the replace
protocol preserves the byte content stored at the original path (in the
absence of a concurrent external deletion). -/
theorem replaceProtocol_content (cfg : Config) (env : Env) (st : St) (p : String)
    (c : Int) (src : File) (out : St × RebResult)
    (hout : replaceProtocol cfg env st p c src = out)
    (hs : strEndsWith p tempSuffix = false)
    (hfs : st.fs p = some src)
    (hrv : env.removeVanished = false) :
    (∃ rp, out.2 = .failed (.criticalRename rp)) ∨ contentAt out.1.fs p = contentAt st.fs p := by
  have hne : p ≠ p ++ tempSuffix := ne_append_of_not_endsWith p tempSuffix hs
  have hup : ∀ (fs : Fs) (v : Option File), updateFs fs (p ++ tempSuffix) v p = fs p :=
    fun fs v => updateFs_ne fs _ p v hne
  have hcmp : ∀ t : File,
      CompareFileChecksum (updateFs st.fs (p ++ tempSuffix) (some t)) p (p ++ tempSuffix) =
        decide (src.content = t.content) := by
    intro t
    unfold CompareFileChecksum
    rw [hup, hfs, updateFs_self]
  unfold replaceProtocol at hout
  simp only [hrv, Bool.false_eq_true, if_false, hcmp] at hout
  repeat' split at hout
  all_goals cases hout
  all_goals try (left; exact ⟨_, rfl⟩)
  all_goals right
  all_goals
    simp_all [contentAt, hup, updateFs_self, fixMetadata_content, hfs,
      decide_eq_false_iff_not, not_not]

/-- How the replace protocol updates the ledger: `count+1` exactly on a
completed replacement with pass-limiting active, untouched otherwise. -/
theorem replaceProtocol_ledger (cfg : Config) (env : Env) (st : St) (p : String)
    (c : Int) (src : File) (out : St × RebResult)
    (hout : replaceProtocol cfg env st p c src = out) :
    (out.2 = .done → 0 < cfg.passesLimit →
        out.1.ledger = SetRebalanceCount st.ledger p (c + 1)) ∧
    (out.2 = .done → cfg.passesLimit ≤ 0 → out.1.ledger = st.ledger) ∧
    (out.2 ≠ .done → out.1.ledger = st.ledger) := by
  unfold replaceProtocol at hout
  simp only [handleMissingFile_eq] at hout
  repeat' split at hout
  all_goals (cases hout; constructor)
  all_goals try constructor
  all_goals intro h1
  all_goals try intro h2
  all_goals simp_all
  all_goals omega

/-- With halt-on-missing disabled, the post-hardlink part of
`RebalanceFile` neither changes the shutdown flag nor panics. -/
theorem afterHardlinkCheck_shutdown (cfg : Config) (env : Env) (st : St) (p : String)
    (out : St × RebResult) (hout : afterHardlinkCheck cfg env st p = out)
    (h : cfg.haltOnFileMissing = false) :
    out.1.shutdown = st.shutdown ∧ out.2 ≠ .panicked := by
  unfold afterHardlinkCheck at hout
  simp only [handleMissingFile_eq, h, Bool.false_eq_true, if_false] at hout
  repeat' split at hout
  all_goals first
    | exact replaceProtocol_shutdown _ _ _ _ _ _ _ hout h
    | (cases hout; simp)

/-- With halt-on-missing disabled, a `RebalanceFile` call neither changes
the shutdown flag nor panics. -/
theorem RebalanceFile_shutdown_stable (cfg : Config) (env : Env) (st : St) (p : String)
    (out : St × RebResult) (hout : RebalanceFile cfg env st p = out)
    (h : cfg.haltOnFileMissing = false) :
    out.1.shutdown = st.shutdown ∧ out.2 ≠ .panicked := by
  unfold RebalanceFile at hout
  simp only [handleMissingFile_eq, h, Bool.false_eq_true, if_false] at hout
  repeat' split at hout
  all_goals first
    | exact afterHardlinkCheck_shutdown _ _ _ _ _ hout h
    | (cases hout; simp)

/-- When every skip filter falls through (existing regular file, not a
temp artifact, no disqualifying hardlinks, pass limit not reached, no
shutdown requested), `RebalanceFile` is exactly the replace protocol. -/
theorem RebalanceFile_protocol (cfg : Config) (env : Env) (st : St) (p : String) (src : File)
    (hs : strEndsWith p tempSuffix = false)
    (hfs : st.fs p = some src)
    (hlink : cfg.skipHardlinks = true → src.linkCount ≤ 1)
    (hlimit : ¬(cfg.passesLimit > 0 ∧ st.ledger p ≥ cfg.passesLimit))
    (hreg : src.regular = true)
    (hsd : st.shutdown = false) :
    RebalanceFile cfg env st p = replaceProtocol cfg env st p (st.ledger p) src := by
  unfold RebalanceFile afterHardlinkCheck
  simp only [hs, Bool.false_eq_true, if_false, GetLinkCount, hfs, Option.map_some',
    GetRebalanceCount, hreg, hsd]
  by_cases hsk : cfg.skipHardlinks = true
  · have hl := hlink hsk
    simp [hsk, Nat.not_lt.mpr hl, hlimit, hreg, hsd, hfs, GetRebalanceCount]
  · simp [hsk, hlimit, hreg, hsd, hfs, GetRebalanceCount]

/-- Content preservation lifted to `afterHardlinkCheck`. -/
theorem afterHardlinkCheck_content (cfg : Config) (env : Env) (st : St) (p : String)
    (out : St × RebResult) (hout : afterHardlinkCheck cfg env st p = out)
    (hs : strEndsWith p tempSuffix = false)
    (hrv : env.removeVanished = false) :
    (∃ rp, out.2 = .failed (.criticalRename rp)) ∨ contentAt out.1.fs p = contentAt st.fs p := by
  unfold afterHardlinkCheck at hout
  simp only [handleMissingFile_eq] at hout
  repeat' split at hout
  all_goals first
    | exact replaceProtocol_content _ _ _ _ _ _ _ hout hs (by assumption) hrv
    | (cases hout; right; rfl)

/-- Content preservation lifted to `RebalanceFile`: unless the call ends
in the critical rename failure, the byte content stored at the processed
path is unchanged (absent concurrent external deletion). -/
theorem RebalanceFile_content (cfg : Config) (env : Env) (st : St) (p : String)
    (out : St × RebResult) (hout : RebalanceFile cfg env st p = out)
    (hrv : env.removeVanished = false) :
    (∃ rp, out.2 = .failed (.criticalRename rp)) ∨ contentAt out.1.fs p = contentAt st.fs p := by
  unfold RebalanceFile at hout
  simp only [handleMissingFile_eq] at hout
  repeat' split at hout
  all_goals first
    | exact afterHardlinkCheck_content _ _ _ _ _ hout (by simp_all) hrv
    | (cases hout; right; rfl)

/-- Ledger behaviour lifted to `afterHardlinkCheck`. -/
theorem afterHardlinkCheck_ledger (cfg : Config) (env : Env) (st : St) (p : String)
    (out : St × RebResult) (hout : afterHardlinkCheck cfg env st p = out) :
    (out.2 = .done → 0 < cfg.passesLimit →
        out.1.ledger = SetRebalanceCount st.ledger p (st.ledger p + 1)) ∧
    (out.2 = .done → cfg.passesLimit ≤ 0 → out.1.ledger = st.ledger) ∧
    (out.2 ≠ .done → out.1.ledger = st.ledger) := by
  unfold afterHardlinkCheck at hout
  simp only [handleMissingFile_eq] at hout
  repeat' split at hout
  all_goals first
    | exact replaceProtocol_ledger _ _ _ _ _ _ _ hout
    | (cases hout; refine ⟨?_, ?_, ?_⟩ <;> intros <;> simp_all)

/-- Ledger behaviour lifted to `RebalanceFile`: `count+1` at the
processed path exactly on a completed replacement with pass-limiting
active, untouched otherwise. -/
theorem RebalanceFile_ledger (cfg : Config) (env : Env) (st : St) (p : String)
    (out : St × RebResult) (hout : RebalanceFile cfg env st p = out) :
    (out.2 = .done → 0 < cfg.passesLimit →
        out.1.ledger = SetRebalanceCount st.ledger p (st.ledger p + 1)) ∧
    (out.2 = .done → cfg.passesLimit ≤ 0 → out.1.ledger = st.ledger) ∧
    (out.2 ≠ .done → out.1.ledger = st.ledger) := by
  unfold RebalanceFile at hout
  simp only [handleMissingFile_eq] at hout
  repeat' split at hout
  all_goals first
    | exact afterHardlinkCheck_ledger _ _ _ _ _ hout
    | (cases hout; refine ⟨?_, ?_, ?_⟩ <;> intros <;> simp_all)

/-- Entered with the shutdown channel still open, a `RebalanceFile` call
never reports the shutdown skip. -/
theorem RebalanceFile_not_shutdownSkip (cfg : Config) (env : Env) (st : St) (p : String)
    (out : St × RebResult) (hout : RebalanceFile cfg env st p = out)
    (hsd : st.shutdown = false) :
    out.2 ≠ .skipped .shutdownRequested := by
  unfold RebalanceFile afterHardlinkCheck at hout
  simp only [handleMissingFile_eq] at hout
  repeat' split at hout
  all_goals first
    | exact replaceProtocol_not_shutdownSkip _ _ _ _ _ _ _ hout
    | (cases hout; simp_all)

/-! ### Claim theorems -/

/-- Claim C1: for every regular file, the byte content at the processed
path is identical before and after a `RebalanceFile` call whenever the
call returns `nil` (a successful replacement or a no-op skip), in the
absence of a concurrent external deletion of the original. -/
theorem claim_C1_content_invariance (cfg : Config) (env : Env) (st : St) (p : String)
    (hrv : env.removeVanished = false)
    (hnil : ((RebalanceFile cfg env st p).2).isNil = true) :
    contentAt (RebalanceFile cfg env st p).1.fs p = contentAt st.fs p := by
  rcases RebalanceFile_content cfg env st p _ rfl hrv with ⟨rp, hcrit⟩ | hpres
  · rw [hcrit] at hnil
    simp [RebResult.isNil] at hnil
  · exact hpres

theorem claim_C1_witness :
    contentAt (RebalanceFile wCfg benignEnv wSt "a").1.fs "a" = contentAt wSt.fs "a" :=
  claim_C1_content_invariance wCfg benignEnv wSt "a" rfl (by decide)

/-- Claim C2: if the rename of the temp file onto the original path fails
after the original has been removed, `RebalanceFile` renames the temp to
`path + ".recovered"` (shown here for the case where that best-effort
rename succeeds), returns a critical error naming that recovery path, the
original path holds no file, and the original content is preserved in the
recovery file; and (second conjunct) every outcome other than this
critical failure leaves the content at the original path unchanged
(absent concurrent external deletion). -/
theorem claim_C2_critical_rename (cfg : Config) (env : Env) (st : St) (p : String) (src : File)
    (hs : strEndsWith p tempSuffix = false)
    (hfs : st.fs p = some src)
    (hlink : cfg.skipHardlinks = true → src.linkCount ≤ 1)
    (hlimit : ¬(cfg.passesLimit > 0 ∧ st.ledger p ≥ cfg.passesLimit))
    (hreg : src.regular = true)
    (hsd : st.shutdown = false)
    (hcopy : env.copyFails = false)
    (htc : env.tempContent = none)
    (hrv : env.removeVanished = false)
    (hrm : env.removeFails = false)
    (hrn : env.renameFails = true)
    (hrr : env.recoveryRenameFails = false) :
    ((RebalanceFile cfg env st p).2 =
        .failed (.criticalRename (p ++ ".recovered")) ∧
      errorMessage (.criticalRename (p ++ ".recovered")) =
        "CRITICAL: rename failed, data saved to " ++ (p ++ ".recovered") ∧
      (RebalanceFile cfg env st p).1.fs p = none ∧
      contentAt (RebalanceFile cfg env st p).1.fs (p ++ ".recovered") = some src.content ∧
      (RebalanceFile cfg env st p).1.fs (p ++ tempSuffix) = none) ∧
    (∀ (env' : Env) (st' : St),
      env'.removeVanished = false →
      (∀ rp, (RebalanceFile cfg env' st' p).2 ≠ .failed (.criticalRename rp)) →
      contentAt (RebalanceFile cfg env' st' p).1.fs p = contentAt st'.fs p) := by
  constructor
  · have hne : p ≠ p ++ tempSuffix := ne_append_of_not_endsWith p tempSuffix hs
    have hner : p ≠ p ++ ".recovered" := ne_append_of_ne_nil p ".recovered" (by decide)
    have hntr : (p ++ tempSuffix) ≠ (p ++ ".recovered") :=
      append_ne_append p tempSuffix ".recovered" (by decide)
    have hcmp : CompareFileChecksum
        (updateFs st.fs (p ++ tempSuffix) (some (tempFileOf env src))) p (p ++ tempSuffix) =
          true := by
      unfold CompareFileChecksum
      rw [updateFs_ne _ _ _ _ hne, hfs, updateFs_self]
      simp [tempFileOf, htc]
    rw [RebalanceFile_protocol cfg env st p src hs hfs hlink hlimit hreg hsd]
    unfold replaceProtocol
    simp only [hcopy, hrv, hrm, hrn, hrr, Bool.false_eq_true, if_false, if_true, hcmp,
      Bool.true_eq_false, errorMessage]
    refine ⟨trivial, trivial, ?_, ?_, ?_⟩
    · rw [updateFs_ne _ _ _ _ hner, updateFs_ne _ _ _ _ hne, updateFs_self]
    · rw [contentAt, updateFs_self]
      simp [tempFileOf, htc]
    · rw [updateFs_ne _ _ _ _ hntr, updateFs_self]
  · intro env' st' hrv' hnc
    rcases RebalanceFile_content cfg env' st' p _ rfl hrv' with ⟨rp, hcrit⟩ | hpres
    · exact absurd hcrit (hnc rp)
    · exact hpres

theorem claim_C2_witness :
    ((RebalanceFile wCfg { benignEnv with renameFails := true } wSt "a").2 =
        .failed (.criticalRename ("a" ++ ".recovered")) ∧
      contentAt (RebalanceFile wCfg { benignEnv with renameFails := true } wSt "a").1.fs
        ("a" ++ ".recovered") = some wFile.content) ∧
    contentAt (RebalanceFile wCfg benignEnv wSt "a").1.fs "a" = contentAt wSt.fs "a" := by
  have h := claim_C2_critical_rename wCfg { benignEnv with renameFails := true } wSt "a" wFile
    (by decide) (by decide) (fun _ => by decide) (by decide) (by decide) rfl rfl rfl rfl rfl rfl rfl
  refine ⟨⟨h.1.1, h.1.2.2.2.1⟩, h.2 benignEnv wSt rfl ?_⟩
  intro rp hbad
  rw [show (RebalanceFile wCfg benignEnv wSt "a").2 = RebResult.done from by decide] at hbad
  simp at hbad

/-- Claim C3: when the temp copy's digest differs from the original's,
`RebalanceFile` deletes the temp file and returns a checksum-mismatch
error; the original content at the path is unchanged, no temp file
remains, and the ledger is untouched. -/
theorem claim_C3_checksum_mismatch (cfg : Config) (env : Env) (st : St) (p : String)
    (src : File) (c : Content)
    (hs : strEndsWith p tempSuffix = false)
    (hfs : st.fs p = some src)
    (hlink : cfg.skipHardlinks = true → src.linkCount ≤ 1)
    (hlimit : ¬(cfg.passesLimit > 0 ∧ st.ledger p ≥ cfg.passesLimit))
    (hreg : src.regular = true)
    (hsd : st.shutdown = false)
    (hcopy : env.copyFails = false)
    (htc : env.tempContent = some c)
    (hcne : c ≠ src.content) :
    (RebalanceFile cfg env st p).2 = .failed .checksumMismatch ∧
    contentAt (RebalanceFile cfg env st p).1.fs p = some src.content ∧
    (RebalanceFile cfg env st p).1.fs (p ++ tempSuffix) = none ∧
    (RebalanceFile cfg env st p).1.ledger = st.ledger := by
  have hne : p ≠ p ++ tempSuffix := ne_append_of_not_endsWith p tempSuffix hs
  have hcmp : CompareFileChecksum
      (updateFs st.fs (p ++ tempSuffix) (some (tempFileOf env src))) p (p ++ tempSuffix) =
        false := by
    unfold CompareFileChecksum
    rw [updateFs_ne _ _ _ _ hne, hfs, updateFs_self]
    simp [tempFileOf, htc]
    exact fun h => hcne h.symm
  rw [RebalanceFile_protocol cfg env st p src hs hfs hlink hlimit hreg hsd]
  unfold replaceProtocol
  simp only [hcopy, Bool.false_eq_true, if_false, hcmp, if_true]
  refine ⟨trivial, ?_, ?_, trivial⟩
  · rw [contentAt, updateFs_ne _ _ _ _ hne, updateFs_ne _ _ _ _ hne, hfs, Option.map_some']
  · rw [updateFs_self]

theorem claim_C3_witness :
    (RebalanceFile wCfg { benignEnv with tempContent := some [9] } wSt "a").2 =
      .failed .checksumMismatch ∧
    contentAt (RebalanceFile wCfg { benignEnv with tempContent := some [9] } wSt "a").1.fs "a" =
      some wFile.content ∧
    (RebalanceFile wCfg { benignEnv with tempContent := some [9] } wSt "a").1.fs
      ("a" ++ tempSuffix) = none ∧
    (RebalanceFile wCfg { benignEnv with tempContent := some [9] } wSt "a").1.ledger =
      wSt.ledger :=
  claim_C3_checksum_mismatch wCfg { benignEnv with tempContent := some [9] } wSt "a" wFile [9]
    (by decide) (by decide) (fun _ => by decide) (by decide) (by decide) rfl rfl rfl (by decide)

/-- Worker-loop completeness under no shutdown: with halt-on-missing off
and shutdown not requested, every queued file is attempted, and the
shutdown flag stays clear. -/
theorem runWorkerLoop_complete (cfg : Config) (envs : String → Env)
    (h : cfg.haltOnFileMissing = false) :
    ∀ (files : List String) (st : St), st.shutdown = false →
      (runWorkerLoop cfg envs st files).2.map Prod.fst = files ∧
      (runWorkerLoop cfg envs st files).1.shutdown = false
  | [], st, hsd => by simp [runWorkerLoop, hsd]
  | f :: rest, st, hsd => by
      have hstable := (RebalanceFile_shutdown_stable cfg (envs f) st f _ rfl h).1
      have ih := runWorkerLoop_complete cfg envs h rest (RebalanceFile cfg (envs f) st f).1
        (by rw [hstable, hsd])
      simp [runWorkerLoop, hsd, ih.1, ih.2]

/-- Claim C4: with no shutdown requested, `Run` attempts `RebalanceFile`
on every enumerated file even when some fail, and returns the aggregate
error exactly when at least one file's call returned a non-nil error. -/
theorem claim_C4_run_aggregate (cfg : Config) (envs : String → Env) (st : St)
    (files : List String)
    (h : cfg.haltOnFileMissing = false) (hsd : st.shutdown = false) :
    ((Run cfg envs st files).2.1.map Prod.fst = files) ∧
    ((Run cfg envs st files).2.2 ≠ none ↔
      ∃ o ∈ (Run cfg envs st files).2.1, (o.2).isNil = false) := by
  constructor
  · exact (runWorkerLoop_complete cfg envs h files st hsd).1
  · have hrun1 : (Run cfg envs st files).2.1 = (runWorkerLoop cfg envs st files).2 := by
      simp [Run]
    have hiff : (Run cfg envs st files).2.2 ≠ none ↔
        (runWorkerLoop cfg envs st files).2.any (fun o => !(o.2).isNil) = true := by
      by_cases hany : (runWorkerLoop cfg envs st files).2.any (fun o => !(o.2).isNil) = true <;>
        simp [Run, hany]
    rw [hiff, List.any_eq_true, hrun1]
    simp [Bool.not_eq_true']

theorem claim_C4_witness :
    ((Run wCfg (fun _ => benignEnv) wSt ["a", "missing"]).2.1.map Prod.fst =
      ["a", "missing"]) ∧
    ((Run wCfg (fun _ => benignEnv) wSt ["a", "missing"]).2.2 ≠ none ↔
      ∃ o ∈ (Run wCfg (fun _ => benignEnv) wSt ["a", "missing"]).2.1,
        (o.2).isNil = false) :=
  claim_C4_run_aggregate wCfg (fun _ => benignEnv) wSt ["a", "missing"] rfl rfl

/-- Claim C5: when the ledger's recorded count for an existing file has
reached a positive pass limit, `RebalanceFile` is a no-op: it returns
`nil` and leaves the whole state (filesystem, ledger, shutdown flag)
unchanged. -/
theorem claim_C5_pass_limit_noop (cfg : Config) (env : Env) (st : St) (p : String) (f : File)
    (hfs : st.fs p = some f)
    (hL : 0 < cfg.passesLimit)
    (hC : cfg.passesLimit ≤ GetRebalanceCount st.ledger p) :
    ((RebalanceFile cfg env st p).2).isNil = true ∧ (RebalanceFile cfg env st p).1 = st := by
  have hC' : cfg.passesLimit ≤ st.ledger p := hC
  unfold RebalanceFile afterHardlinkCheck
  by_cases hs : strEndsWith p tempSuffix = true
  · simp [hs, RebResult.isNil]
  · simp only [hs, Bool.false_eq_true, if_false]
    by_cases hsk : cfg.skipHardlinks = true
    · simp only [hsk, if_true, GetLinkCount, hfs, Option.map_some']
      by_cases hl : 1 < f.linkCount
      · simp [hl, RebResult.isNil]
      · simp [hl, hL, hC', RebResult.isNil, GetRebalanceCount]
    · simp [hsk, hL, hC', RebResult.isNil, GetRebalanceCount]

theorem claim_C5_witness :
    ((RebalanceFile wCfg benignEnv { wSt with ledger := fun _ => 10 } "a").2).isNil = true ∧
    (RebalanceFile wCfg benignEnv { wSt with ledger := fun _ => 10 } "a").1 =
      { wSt with ledger := fun _ => 10 } :=
  claim_C5_pass_limit_noop wCfg benignEnv { wSt with ledger := fun _ => 10 } "a" wFile
    (by decide) (by decide) (by decide)

/-- Claim C6 counterexample: with the pass limit configured to 0
(unlimited), a successful, non-skipped `RebalanceFile` call completes with
`done` yet the ledger count for the path stays 0 — it is **not**
incremented "regardless of the configured pass limit". -/
theorem claim_C6_counterexample :
    (RebalanceFile { wCfg with passesLimit := 0 } benignEnv wSt "a").2 = .done ∧
    (RebalanceFile { wCfg with passesLimit := 0 } benignEnv wSt "a").1.ledger "a" = 0 := by
  decide

/-- Claim C6 (amended): the ledger count is non-decreasing at every path
across any `RebalanceFile` call; a successful non-skipped call increments
the processed path's count by exactly 1 **when the pass limit is
positive** (pass-limiting active); with limit ≤ 0 the ledger is not
written even on success; and any call that does not complete the
replacement (skip or failure) leaves the ledger untouched. -/
theorem claim_C6_ledger_monotone (cfg : Config) (env : Env) (st : St) (p : String) :
    (∀ q, st.ledger q ≤ (RebalanceFile cfg env st p).1.ledger q) ∧
    ((RebalanceFile cfg env st p).2 = .done → 0 < cfg.passesLimit →
        (RebalanceFile cfg env st p).1.ledger p = st.ledger p + 1) ∧
    ((RebalanceFile cfg env st p).2 = .done → cfg.passesLimit ≤ 0 →
        (RebalanceFile cfg env st p).1.ledger = st.ledger) ∧
    ((RebalanceFile cfg env st p).2 ≠ .done →
        (RebalanceFile cfg env st p).1.ledger = st.ledger) := by
  obtain ⟨h1, h2, h3⟩ := RebalanceFile_ledger cfg env st p _ rfl
  refine ⟨?_, ?_, h2, h3⟩
  · intro q
    by_cases hd : (RebalanceFile cfg env st p).2 = .done
    · by_cases hp : 0 < cfg.passesLimit
      · rw [h1 hd hp]
        unfold SetRebalanceCount
        split
        · next he => rw [he]; omega
        · omega
      · rw [h2 hd (by omega)]
    · rw [h3 hd]
  · intro hd hp
    rw [h1 hd hp, setCount_self]

theorem claim_C6_witness :
    (RebalanceFile wCfg benignEnv wSt "a").1.ledger "a" = wSt.ledger "a" + 1 :=
  (claim_C6_ledger_monotone wCfg benignEnv wSt "a").2.1 (by decide) (by decide)

/-- Claim C7: each soft condition returns `nil` (not an error): a
temp-suffix path skips regardless of any other state; a hardlinked file
(link count > 1) with hardlink-skip enabled skips with the whole state,
ledger included, unchanged; a non-regular file skips; a file missing
before processing skips, also when halt-on-missing turns it into a
shutdown trigger (provided the trigger is a first close of the shutdown
channel); and a file that vanishes during processing, at the remove step,
also yields `nil`, again with the halt-on-missing shutdown trigger. -/
theorem claim_C7_soft_conditions :
    (∀ (cfg : Config) (env : Env) (st : St) (p : String),
        strEndsWith p tempSuffix = true →
        RebalanceFile cfg env st p = (st, .skipped .tempSuffix)) ∧
    (∀ (cfg : Config) (env : Env) (st : St) (p : String) (f : File),
        strEndsWith p tempSuffix = false →
        cfg.skipHardlinks = true →
        st.fs p = some f →
        1 < f.linkCount →
        RebalanceFile cfg env st p = (st, .skipped .hardlink)) ∧
    (∀ (cfg : Config) (env : Env) (st : St) (p : String) (f : File),
        strEndsWith p tempSuffix = false →
        st.fs p = some f →
        (cfg.skipHardlinks = true → f.linkCount ≤ 1) →
        ¬(cfg.passesLimit > 0 ∧ st.ledger p ≥ cfg.passesLimit) →
        f.regular = false →
        RebalanceFile cfg env st p = (st, .skipped .notRegular)) ∧
    (∀ (cfg : Config) (env : Env) (st : St) (p : String),
        strEndsWith p tempSuffix = false →
        st.fs p = none →
        ¬(cfg.passesLimit > 0 ∧ st.ledger p ≥ cfg.passesLimit) →
        (cfg.haltOnFileMissing = true → st.shutdown = false) →
        (RebalanceFile cfg env st p).2 = .skipped .vanished ∧
        (RebalanceFile cfg env st p).1.fs = st.fs ∧
        (RebalanceFile cfg env st p).1.ledger = st.ledger ∧
        (cfg.haltOnFileMissing = true → (RebalanceFile cfg env st p).1.shutdown = true)) ∧
    (∀ (cfg : Config) (env : Env) (st : St) (p : String) (src : File),
        strEndsWith p tempSuffix = false →
        st.fs p = some src →
        (cfg.skipHardlinks = true → src.linkCount ≤ 1) →
        ¬(cfg.passesLimit > 0 ∧ st.ledger p ≥ cfg.passesLimit) →
        src.regular = true →
        st.shutdown = false →
        env.copyFails = false →
        env.tempContent = none →
        env.removeVanished = true →
        (RebalanceFile cfg env st p).2 = .skipped .vanished ∧
        (cfg.haltOnFileMissing = true → (RebalanceFile cfg env st p).1.shutdown = true)) := by
  refine ⟨?_, ?_, ?_, ?_, ?_⟩
  · intro cfg env st p hs
    unfold RebalanceFile
    simp [hs]
  · intro cfg env st p f hs hsk hfs hl
    unfold RebalanceFile
    simp [hs, hsk, GetLinkCount, hfs, hl]
  · intro cfg env st p f hs hfs hlink hlimit hreg
    unfold RebalanceFile afterHardlinkCheck
    by_cases hsk : cfg.skipHardlinks = true
    · have hl := hlink hsk
      simp [hs, hsk, GetLinkCount, hfs, Nat.not_lt.mpr hl, hlimit, hreg, GetRebalanceCount]
    · simp [hs, hsk, hlimit, hfs, hreg, GetRebalanceCount]
  · intro cfg env st p hs hfs hlimit hguard
    have heq : RebalanceFile cfg env st p = handleMissingFile cfg st := by
      unfold RebalanceFile afterHardlinkCheck
      by_cases hsk : cfg.skipHardlinks = true
      · simp [hs, hsk, GetLinkCount, hfs]
      · simp [hs, hsk, hlimit, hfs, GetRebalanceCount]
    rw [heq, handleMissingFile_eq]
    by_cases hhalt : cfg.haltOnFileMissing = true
    · simp [hhalt, hguard hhalt]
    · simp [hhalt]
  · intro cfg env st p src hs hfs hlink hlimit hreg hsd hcopy htc hrv
    have hne : p ≠ p ++ tempSuffix := ne_append_of_not_endsWith p tempSuffix hs
    have hcmp : CompareFileChecksum
        (updateFs st.fs (p ++ tempSuffix) (some (tempFileOf env src))) p (p ++ tempSuffix) =
          true := by
      unfold CompareFileChecksum
      rw [updateFs_ne _ _ _ _ hne, hfs, updateFs_self]
      simp [tempFileOf, htc]
    rw [RebalanceFile_protocol cfg env st p src hs hfs hlink hlimit hreg hsd]
    unfold replaceProtocol
    simp only [hcopy, Bool.false_eq_true, if_false, hcmp, Bool.true_eq_false, hrv, if_true]
    rw [handleMissingFile_eq]
    by_cases hhalt : cfg.haltOnFileMissing = true
    · simp [hhalt, hsd]
    · simp [hhalt]

theorem claim_C7_witness :
    RebalanceFile wCfg benignEnv wSt2 "x.balance" = (wSt2, .skipped .tempSuffix) ∧
    RebalanceFile wCfg benignEnv wSt2 "h" = (wSt2, .skipped .hardlink) ∧
    RebalanceFile wCfg benignEnv wSt2 "d" = (wSt2, .skipped .notRegular) ∧
    ((RebalanceFile wCfgHalt benignEnv wSt2 "missing").2 = .skipped .vanished ∧
      (RebalanceFile wCfgHalt benignEnv wSt2 "missing").1.shutdown = true) ∧
    ((RebalanceFile wCfgHalt { benignEnv with removeVanished := true } wSt2 "a").2 =
        .skipped .vanished ∧
      (RebalanceFile wCfgHalt { benignEnv with removeVanished := true } wSt2 "a").1.shutdown =
        true) := by
  obtain ⟨h1, h2, h3, h4, h5⟩ := claim_C7_soft_conditions
  refine ⟨h1 wCfg benignEnv wSt2 "x.balance" (by decide),
    h2 wCfg benignEnv wSt2 "h" { wFile with linkCount := 2 } (by decide) rfl (by decide)
      (by decide),
    h3 wCfg benignEnv wSt2 "d" { wFile with regular := false } (by decide) (by decide)
      (fun _ => by decide) (by decide) (by decide), ?_, ?_⟩
  · obtain ⟨ha, _, _, hb⟩ := h4 wCfgHalt benignEnv wSt2 "missing" (by decide) (by decide)
      (by decide) (fun _ => rfl)
    exact ⟨ha, hb rfl⟩
  · obtain ⟨ha, hb⟩ := h5 wCfgHalt { benignEnv with removeVanished := true } wSt2 "a" wFile
      (by decide) (by decide) (fun _ => by decide) (by decide) (by decide) rfl rfl rfl rfl
    exact ⟨ha, hb rfl⟩

/-- Claim C8 counterexample: `InitiateShutdown` is not idempotent — the
first call on a fresh `Rebalancer` closes the channel, and a second call
hits the Go runtime's close-of-closed-channel panic (`none`). -/
theorem claim_C8_counterexample :
    InitiateShutdown wSt = some { wSt with shutdown := true } ∧
    InitiateShutdown { wSt with shutdown := true } = none :=
  ⟨rfl, rfl⟩

/-- Claim C8 (amended): `InitiateShutdown` closes the shutdown channel
with a raw `close`, so only the first call is safe: it completes and
leaves the shutdown signal set, while a second call on the same
`Rebalancer` double-closes the channel and panics. -/
theorem claim_C8_not_idempotent (st : St) (h : st.shutdown = false) :
    ∃ st', InitiateShutdown st = some st' ∧ st'.shutdown = true ∧
      InitiateShutdown st' = none := by
  refine ⟨{ st with shutdown := true }, ?_, rfl, ?_⟩ <;>
    simp [InitiateShutdown, closeChan, h]

theorem claim_C8_witness :
    ∃ st', InitiateShutdown wSt = some st' ∧ st'.shutdown = true ∧
      InitiateShutdown st' = none :=
  claim_C8_not_idempotent wSt rfl

/-- Claim C9 counterexample: the shutdown signal **is** consulted inside
`RebalanceFile` — two calls on the same rebalance-eligible file that
differ only in the shutdown flag behave differently: with shutdown
requested the call returns a shutdown skip without creating the temp
file, while with the flag clear it completes the replacement. -/
theorem claim_C9_counterexample :
    (RebalanceFile wCfg benignEnv { wSt with shutdown := true } "a").2 =
      .skipped .shutdownRequested ∧
    (RebalanceFile wCfg benignEnv { wSt with shutdown := true } "a").1.fs ("a" ++ tempSuffix) =
      none ∧
    (RebalanceFile wCfg benignEnv wSt "a").2 = .done := by
  decide

/-- Claim C9 (amended): the shutdown signal is consulted at three points,
not two — before a worker pulls the next file (the worker loop stops
pulling once the flag is set), before the coordinator enqueues the next
file, and additionally inside `RebalanceFile` after the skip filters and
immediately before the copy step: a call entered with shutdown requested
returns `nil` without copying; a call that passes that check (shutdown
clear) never reports the shutdown skip and runs the protocol to
completion. -/
theorem claim_C9_shutdown_checkpoints (cfg : Config) (env : Env) (st : St) (p : String)
    (src : File)
    (hs : strEndsWith p tempSuffix = false)
    (hfs : st.fs p = some src)
    (hlink : cfg.skipHardlinks = true → src.linkCount ≤ 1)
    (hlimit : ¬(cfg.passesLimit > 0 ∧ st.ledger p ≥ cfg.passesLimit))
    (hreg : src.regular = true) :
    (st.shutdown = true → RebalanceFile cfg env st p = (st, .skipped .shutdownRequested)) ∧
    (st.shutdown = false → (RebalanceFile cfg env st p).2 ≠ .skipped .shutdownRequested) ∧
    (∀ (envs : String → Env) (files : List String), st.shutdown = true →
        runWorkerLoop cfg envs st files = (st, [])) := by
  refine ⟨?_, ?_, ?_⟩
  · intro hsd
    unfold RebalanceFile afterHardlinkCheck
    by_cases hsk : cfg.skipHardlinks = true
    · have hl := hlink hsk
      simp [hs, hsk, GetLinkCount, hfs, Nat.not_lt.mpr hl, hlimit, hreg, hsd, GetRebalanceCount]
    · simp [hs, hsk, hlimit, hfs, hreg, hsd, GetRebalanceCount]
  · intro hsd
    exact RebalanceFile_not_shutdownSkip cfg env st p _ rfl hsd
  · intro envs files hsd
    cases files <;> simp [runWorkerLoop, hsd]

theorem claim_C9_witness :
    RebalanceFile wCfg benignEnv { wSt with shutdown := true } "a" =
      ({ wSt with shutdown := true }, .skipped .shutdownRequested) ∧
    (RebalanceFile wCfg benignEnv wSt "a").2 ≠ .skipped .shutdownRequested := by
  refine ⟨?_, ?_⟩
  · exact (claim_C9_shutdown_checkpoints wCfg benignEnv { wSt with shutdown := true } "a" wFile
      (by decide) (by decide) (fun _ => by decide) (by decide) (by decide)).1 rfl
  · exact (claim_C9_shutdown_checkpoints wCfg benignEnv wSt "a" wFile
      (by decide) (by decide) (fun _ => by decide) (by decide) (by decide)).2.1 rfl

/-- `calculateConcurrency` always returns a positive worker count. -/
theorem calculateConcurrency_pos (c : Int) (n : Nat) : 0 < calculateConcurrency c n := by
  have hdiv : 0 ≤ (n : Int) / 2 := Int.ediv_nonneg (by positivity) (by norm_num)
  unfold calculateConcurrency
  split_ifs <;> omega

/-- Claim C10: a positive configured concurrency is used as-is with no
upper clamp anywhere (any value above 128 passes through unchanged); a
non-positive value resolves to half the CPU count, raised to at least 2;
and `Run`'s worker-launching loop starts exactly the resolved number of
workers. -/
theorem claim_C10_concurrency (c : Int) (n : Nat) :
    (0 < c → calculateConcurrency c n = c) ∧
    (c ≤ 0 → calculateConcurrency c n = max ((n : Int) / 2) 2) ∧
    0 < calculateConcurrency c n ∧
    (∀ cfg : Config, cfg.concurrency = calculateConcurrency c n →
      (workersLaunched cfg : Int) = cfg.concurrency) := by
  have hdiv : 0 ≤ (n : Int) / 2 := Int.ediv_nonneg (by positivity) (by norm_num)
  refine ⟨?_, ?_, calculateConcurrency_pos c n, ?_⟩
  · intro hc; simp [calculateConcurrency, hc]
  · intro hc
    unfold calculateConcurrency
    rw [if_neg (by omega)]
    simp only [max_def]
    split <;> split <;> omega
  · intro cfg hcfg
    unfold workersLaunched
    rw [hcfg, Int.toNat_of_nonneg (calculateConcurrency_pos c n).le]

theorem claim_C10_witness :
    calculateConcurrency 200 8 = 200 ∧ calculateConcurrency (-1) 8 = max ((8 : Int) / 2) 2 :=
  ⟨(claim_C10_concurrency 200 8).1 (by decide),
   (claim_C10_concurrency (-1) 8).2.1 (by decide)⟩

end GoZfsRebalance
